import Mathlib

/-!
Verification of the Hyperledger ERC-20-style token chaincode.

A shallow embedding of `token-erc-20/chaincode-go/chaincode/tokenerc20.go`.

The Fabric world state is a key-value store of byte strings; the chaincode
stores integers as their decimal text (strconv.Itoa / strconv.Atoi), balances
under the raw account identifier, allowances under a composite key derived
from the pair (owner, spender), and the total supply under one fixed key.
We model the store as three finite association maps: `balances` keyed by the
account string, `allowances` keyed by the (owner, spender) pair (Fabric's
CreateCompositeKey is injective on the pair and its keys are disjoint from
plain account identifiers), and `totalSupply` as an optional integer (absence
of the key is read as 0 by the code). Events published via SetEvent are
accumulated in an `events` list, newest first. Go's `int` is modelled as the
unbounded `Int`; stored values are always written with Itoa, so the ignored
Atoi errors never fire and the decimal round trip is the identity.

The caller identity (GetID) and organisation (GetMSPID), obtained from the
transaction context in Go, are passed as explicit string arguments.
Collaborator I/O failures (GetState/PutState/SetEvent errors) are outside
the embedding: the store itself never fails. Fallible operations return
`Except String WorldState` with the source's error messages; on an error
nothing is committed (Fabric discards the write set), which `step` reflects
by keeping the pre-state.
-/

/-- Association-map lookup: the value stored at key `k`, `none` when the key
has no record (GetState returning nil). -/
def lookupKV {κ : Type} [DecidableEq κ] : List (κ × Int) → κ → Option Int
  | [], _ => none
  | (k', v) :: rest, k => if k' = k then some v else lookupKV rest k

/-- Association-map overwrite (PutState): the first record for `k` is
replaced in place, or `(k, v)` appended when no record exists. -/
def putKV {κ : Type} [DecidableEq κ] : List (κ × Int) → κ → Int → List (κ × Int)
  | [], k, v => [(k, v)]
  | (k', v') :: rest, k, v =>
      if k' = k then (k, v) :: rest else (k', v') :: putKV rest k v

/-- Sum of all values stored in an association map. -/
def sumKV {κ : Type} (m : List (κ × Int)) : Int :=
  (m.map Prod.snd).sum

/-- The event struct of tokenerc20.go: `{from, to, value}`. -/
structure event where
  From : String
  To : String
  Value : Int
deriving DecidableEq

/-- The world state visible to the chaincode, plus the stream of events it
has published (newest first, each tagged with its SetEvent name). -/
structure WorldState where
  balances : List (String × Int)
  allowances : List ((String × String) × Int)
  totalSupply : Option Int
  events : List (String × event)
deriving DecidableEq

/-- The empty world state: no balance records, no allowance records, no
total-supply record, no events. -/
def initialState : WorldState :=
  { balances := [], allowances := [], totalSupply := none, events := [] }

/-- SetEvent: publish a named event. -/
def setEvent (s : WorldState) (name : String) (e : event) : WorldState :=
  { s with events := (name, e) :: s.events }

/-- Whether an Except-valued chaincode call returned without error. -/
def isOk {α : Type} : Except String α → Bool
  | .ok _ => true
  | .error _ => false

/-- An account's balance read with absence defaulting to 0 (the convention
the code uses on every credit path). -/
def balVal (s : WorldState) (account : String) : Int :=
  (lookupKV s.balances account).getD 0

/-- The total supply, with an absent record read as 0 (as Mint and Burn do). -/
def supplyVal (s : WorldState) : Int :=
  s.totalSupply.getD 0

/-- Sum of every stored account balance. -/
def balancesSum (s : WorldState) : Int :=
  sumKV s.balances

/-- BalanceOf: fails when the account has no record, otherwise returns the
stored balance. -/
def BalanceOf (s : WorldState) (account : String) : Except String Int :=
  match lookupKV s.balances account with
  | none => .error ("the account " ++ account ++ " doesnt exist")
  | some balance => .ok balance

/-- The shared transfer routine `_transferCalc`: rejects identical
addresses and negative amounts, requires the sender to have a balance
record covering the amount, then debits the sender and credits the
receiver (an absent receiver record is credited from 0). No event is
emitted here; the callers emit it. -/
def _transferCalc (s : WorldState) (fromAcc receiver : String) (amount : Int) :
    Except String WorldState :=
  if fromAcc = receiver then
    .error "failed to and from are both the same addresses "
  else if amount < 0 then
    .error "failed, amount less than zero"
  else
    match lookupKV s.balances fromAcc with
    | none => .error ("client account " ++ fromAcc ++ " has no balance")
    | some fromCurrentBalance =>
      if fromCurrentBalance < amount then
        .error ("failed, client account " ++ fromAcc ++ " has insufficient funds")
      else
        let toCurrentBalance := (lookupKV s.balances receiver).getD 0
        let fromUpdatedBalance := fromCurrentBalance - amount
        let toUpdatedBalance := toCurrentBalance + amount
        let s1 := { s with balances := putKV s.balances fromAcc fromUpdatedBalance }
        let s2 := { s1 with balances := putKV s1.balances receiver toUpdatedBalance }
        .ok s2

/-- Transfer: the caller (`clientID`, resolved from the transaction context)
sends `amount` to `receiver` via the shared routine, then a Transfer event
is published. -/
def Transfer (s : WorldState) (clientID receiver : String) (amount : Int) :
    Except String WorldState :=
  match _transferCalc s clientID receiver amount with
  | .error e => .error ("failed to transfer: " ++ e)
  | .ok s1 => .ok (setEvent s1 "Transfer" ⟨clientID, receiver, amount⟩)

/-- TransferFrom: the caller (`spender`) moves `amount` from `fromAcc` to
`receiver`. Rejects non-positive amounts; reads the stored allowance for
(fromAcc, spender) with absence as 0; rejects unless the allowance is
strictly greater than the amount; runs the shared transfer routine; on its
success overwrites the allowance with `currentAllowance - amount` and
publishes a Transfer event. -/
def TransferFrom (s : WorldState) (spender fromAcc receiver : String)
    (amount : Int) : Except String WorldState :=
  if amount ≤ 0 then
    .error "failed amount must be positive integer"
  else
    let currentAllowance := (lookupKV s.allowances (fromAcc, spender)).getD 0
    if currentAllowance ≤ amount then
      .error "spender does not have enough allowance to transfer"
    else
      match _transferCalc s fromAcc receiver amount with
      | .error e => .error ("failed to transfer:" ++ e)
      | .ok s1 =>
        let updatedAllowance := currentAllowance - amount
        let s2 := { s1 with
          allowances := putKV s1.allowances (fromAcc, spender) updatedAllowance }
        .ok (setEvent s2 "Transfer" ⟨fromAcc, receiver, amount⟩)

/-- Approve: the caller (`owner`) unconditionally overwrites the allowance
for (owner, spender) with `amount` and publishes an Approval event. -/
def Approve (s : WorldState) (owner spender : String) (amount : Int) :
    Except String WorldState :=
  let s1 := { s with allowances := putKV s.allowances (owner, spender) amount }
  .ok (setEvent s1 "Approval" ⟨owner, spender, amount⟩)

/-- Allowance: the stored allowance for (owner, spender), 0 when absent.
Read-only; aside from collaborator I/O the source never fails here. -/
def Allowance (s : WorldState) (owner spender : String) : Int :=
  (lookupKV s.allowances (owner, spender)).getD 0

/-- Mint: rejects callers whose MSP identifier is not Org1MSP, rejects
non-positive amounts, credits the minter's own account (absent record read
as 0), adds the amount to the total supply (absent record read as 0), and
publishes a Transfer event from the null account 0x0 to the minter. -/
def Mint (s : WorldState) (mspid minter : String) (amount : Int) :
    Except String WorldState :=
  if mspid ≠ "Org1MSP" then
    .error ("client " ++ mspid ++ " is not authorized to create new tokens")
  else if amount ≤ 0 then
    .error "amount must be positive integer"
  else
    let currentBalance := (lookupKV s.balances minter).getD 0
    let updatedBalance := currentBalance + amount
    let s1 := { s with balances := putKV s.balances minter updatedBalance }
    let totalSupply := s1.totalSupply.getD 0 + amount
    let s2 := { s1 with totalSupply := some totalSupply }
    .ok (setEvent s2 "Transfer" ⟨"0x0", minter, amount⟩)

/-- Burn: rejects callers whose MSP identifier is not Org1MSP, rejects
non-positive amounts, then unconditionally debits the burner's account
(absent record read as 0 — the source has no insufficient-funds check),
subtracts the amount from the total supply, and publishes a Transfer event
whose fields are {from: 0x0, to: burner, value: amount}. -/
def Burn (s : WorldState) (mspid burner : String) (amount : Int) :
    Except String WorldState :=
  if mspid ≠ "Org1MSP" then
    .error ("client " ++ mspid ++ " is not authorized to burn tokens")
  else if amount ≤ 0 then
    .error "amount must be positive integer"
  else
    let currentBalance := (lookupKV s.balances burner).getD 0
    let updatedBalance := currentBalance - amount
    let s1 := { s with balances := putKV s.balances burner updatedBalance }
    let totalSupply := s1.totalSupply.getD 0 - amount
    let s2 := { s1 with totalSupply := some totalSupply }
    .ok (setEvent s2 "Transfer" ⟨"0x0", burner, amount⟩)

/-- One invocation of a mutating public method of the contract, with the
caller identity data the transaction context would supply. -/
inductive Op where
  | mint (mspid minter : String) (amount : Int)
  | burn (mspid burner : String) (amount : Int)
  | transfer (clientID receiver : String) (amount : Int)
  | transferFrom (spender fromAcc receiver : String) (amount : Int)
  | approve (owner spender : String) (amount : Int)
deriving DecidableEq

/-- Dispatch one invocation. -/
def applyOp (s : WorldState) : Op → Except String WorldState
  | .mint mspid minter amount => Mint s mspid minter amount
  | .burn mspid burner amount => Burn s mspid burner amount
  | .transfer clientID receiver amount => Transfer s clientID receiver amount
  | .transferFrom spender fromAcc receiver amount =>
      TransferFrom s spender fromAcc receiver amount
  | .approve owner spender amount => Approve s owner spender amount

/-- The committed state after one invocation: a failed invocation commits
nothing (Fabric discards its write set), a successful one commits its
writes. -/
def step (s : WorldState) (op : Op) : WorldState :=
  match applyOp s op with
  | .ok s' => s'
  | .error _ => s

/-- States reachable from the empty world state through successful
invocations. -/
inductive Reachable : WorldState → Prop where
  | init : Reachable initialState
  | step {s s' : WorldState} {op : Op} :
      Reachable s → applyOp s op = .ok s' → Reachable s'

/-! ## Association-map lemmas -/

theorem lookupKV_putKV_self {κ : Type} [DecidableEq κ]
    (m : List (κ × Int)) (k : κ) (v : Int) :
    lookupKV (putKV m k v) k = some v := by
  induction m with
  | nil => simp [putKV, lookupKV]
  | cons p rest ih =>
    obtain ⟨pk, pv⟩ := p
    by_cases hp : pk = k
    · simp [putKV, hp, lookupKV]
    · simpa [putKV, hp, lookupKV] using ih

theorem lookupKV_putKV_ne {κ : Type} [DecidableEq κ]
    (m : List (κ × Int)) (k k' : κ) (v : Int) (h : k' ≠ k) :
    lookupKV (putKV m k v) k' = lookupKV m k' := by
  induction m with
  | nil => simp [putKV, lookupKV, Ne.symm h]
  | cons p rest ih =>
    obtain ⟨pk, pv⟩ := p
    by_cases hp : pk = k
    · subst hp
      simp [putKV, lookupKV, h, Ne.symm h]
    · by_cases hp' : pk = k'
      · simp [putKV, hp, lookupKV, hp', h]
      · simpa [putKV, hp, lookupKV, hp'] using ih

theorem mem_keys_putKV {κ : Type} [DecidableEq κ]
    (m : List (κ × Int)) (k : κ) (v : Int) (k' : κ)
    (h : k' ∈ (putKV m k v).map Prod.fst) :
    k' = k ∨ k' ∈ m.map Prod.fst := by
  induction m with
  | nil =>
    simp only [putKV, List.map_cons, List.map_nil, List.mem_cons,
      List.not_mem_nil, or_false] at h
    exact .inl h
  | cons p rest ih =>
    obtain ⟨pk, pv⟩ := p
    by_cases hp : pk = k
    · simp only [putKV, if_pos hp, List.map_cons, List.mem_cons] at h ⊢
      rcases h with h | h
      · exact .inl h
      · exact .inr (.inr h)
    · simp only [putKV, if_neg hp, List.map_cons, List.mem_cons] at h ⊢
      rcases h with h | h
      · exact .inr (.inl h)
      · rcases ih h with h' | h'
        · exact .inl h'
        · exact .inr (.inr h')

theorem nodup_keys_putKV {κ : Type} [DecidableEq κ]
    (m : List (κ × Int)) (k : κ) (v : Int)
    (h : (m.map Prod.fst).Nodup) :
    ((putKV m k v).map Prod.fst).Nodup := by
  induction m with
  | nil => simp [putKV]
  | cons p rest ih =>
    obtain ⟨pk, pv⟩ := p
    simp only [List.map_cons, List.nodup_cons] at h
    by_cases hp : pk = k
    · subst hp
      simpa [putKV] using h
    · simp only [putKV, if_neg hp, List.map_cons, List.nodup_cons]
      refine ⟨fun hmem => ?_, ih h.2⟩
      rcases mem_keys_putKV rest k v pk hmem with h' | h'
      · exact hp h'
      · exact h.1 h'

theorem sumKV_putKV {κ : Type} [DecidableEq κ]
    (m : List (κ × Int)) (k : κ) (v : Int)
    (h : (m.map Prod.fst).Nodup) :
    sumKV (putKV m k v) = sumKV m - (lookupKV m k).getD 0 + v := by
  induction m with
  | nil => simp [putKV, sumKV, lookupKV]
  | cons p rest ih =>
    obtain ⟨pk, pv⟩ := p
    simp only [List.map_cons, List.nodup_cons] at h
    by_cases hp : pk = k
    · subst hp
      simp [putKV, sumKV, lookupKV]
      omega
    · have hrec := ih h.2
      simp only [putKV, if_neg hp, sumKV, List.map_cons, List.sum_cons,
        lookupKV, if_neg hp] at hrec ⊢
      omega

/-! ## Inversion and success lemmas for the contract operations -/

theorem transferCalc_ok_inv {s s' : WorldState} {a b : String} {n : Int}
    (h : _transferCalc s a b n = .ok s') :
    a ≠ b ∧ 0 ≤ n ∧ ∃ ba, lookupKV s.balances a = some ba ∧ n ≤ ba ∧
      s' = { s with balances := putKV (putKV s.balances a (ba - n)) b ((lookupKV s.balances b).getD 0 + n) } := by
  simp only [_transferCalc] at h
  split at h
  · exact Except.noConfusion h
  · split at h
    · exact Except.noConfusion h
    · rename_i hab hneg
      split at h
      · exact Except.noConfusion h
      · rename_i ba hba
        split at h
        · exact Except.noConfusion h
        · rename_i hlt
          refine ⟨hab, by omega, ba, hba, by omega, ?_⟩
          cases h
          rfl

theorem transferCalc_ok (s : WorldState) (a b : String) (n : Int)
    (hab : a ≠ b) (hn : 0 ≤ n) (ba : Int)
    (hba : lookupKV s.balances a = some ba) (hle : n ≤ ba) :
    _transferCalc s a b n = .ok { s with balances := putKV (putKV s.balances a (ba - n)) b ((lookupKV s.balances b).getD 0 + n) } := by
  simp only [_transferCalc, if_neg hab, if_neg (not_lt.mpr hn), hba,
    if_neg (not_lt.mpr hle)]

theorem Transfer_ok_inv {s s' : WorldState} {cid r : String} {n : Int}
    (h : Transfer s cid r n = .ok s') :
    ∃ s1, _transferCalc s cid r n = .ok s1 ∧
      s' = setEvent s1 "Transfer" ⟨cid, r, n⟩ := by
  unfold Transfer at h
  split at h
  · exact Except.noConfusion h
  · rename_i s1 heq
    cases h
    exact ⟨s1, heq, rfl⟩

theorem isOk_Transfer (s : WorldState) (cid r : String) (n : Int) :
    isOk (Transfer s cid r n) = isOk (_transferCalc s cid r n) := by
  unfold Transfer
  cases h : _transferCalc s cid r n <;> simp [isOk]

theorem Mint_ok_inv {s s' : WorldState} {mspid minter : String} {n : Int}
    (h : Mint s mspid minter n = .ok s') :
    mspid = "Org1MSP" ∧ 0 < n ∧
      s'.balances = putKV s.balances minter
        ((lookupKV s.balances minter).getD 0 + n) ∧
      s'.allowances = s.allowances ∧
      s'.totalSupply = some (s.totalSupply.getD 0 + n) ∧
      s'.events = ("Transfer", ⟨"0x0", minter, n⟩) :: s.events := by
  simp only [Mint] at h
  split at h
  · exact Except.noConfusion h
  · rename_i hmsp
    split at h
    · exact Except.noConfusion h
    · rename_i hn
      cases h
      exact ⟨by simpa using hmsp, by omega, rfl, rfl, rfl, rfl⟩

theorem Burn_ok_inv {s s' : WorldState} {mspid burner : String} {n : Int}
    (h : Burn s mspid burner n = .ok s') :
    mspid = "Org1MSP" ∧ 0 < n ∧
      s'.balances = putKV s.balances burner
        ((lookupKV s.balances burner).getD 0 - n) ∧
      s'.allowances = s.allowances ∧
      s'.totalSupply = some (s.totalSupply.getD 0 - n) ∧
      s'.events = ("Transfer", ⟨"0x0", burner, n⟩) :: s.events := by
  simp only [Burn] at h
  split at h
  · exact Except.noConfusion h
  · rename_i hmsp
    split at h
    · exact Except.noConfusion h
    · rename_i hn
      cases h
      exact ⟨by simpa using hmsp, by omega, rfl, rfl, rfl, rfl⟩

theorem TransferFrom_ok_inv {s s' : WorldState}
    {spender fromAcc receiver : String} {n : Int}
    (h : TransferFrom s spender fromAcc receiver n = .ok s') :
    0 < n ∧ n < (lookupKV s.allowances (fromAcc, spender)).getD 0 ∧
      ∃ s1, _transferCalc s fromAcc receiver n = .ok s1 ∧
        s' = setEvent { s1 with allowances := putKV s1.allowances (fromAcc, spender) ((lookupKV s.allowances (fromAcc, spender)).getD 0 - n) } "Transfer" ⟨fromAcc, receiver, n⟩ := by
  simp only [TransferFrom] at h
  split at h
  · exact Except.noConfusion h
  · rename_i hn
    split at h
    · exact Except.noConfusion h
    · rename_i hallow
      split at h
      · exact Except.noConfusion h
      · rename_i s1 heq
        cases h
        exact ⟨by omega, by omega, s1, heq, rfl⟩

/-! ## The conservation invariant -/

/-- The inductive bookkeeping invariant: the stored balance records have
pairwise-distinct keys (PutState semantics) and the stored balances sum to
the stored total supply. -/
def LedgerInv (s : WorldState) : Prop :=
  (s.balances.map Prod.fst).Nodup ∧ balancesSum s = supplyVal s

theorem inv_initialState : LedgerInv initialState := by
  constructor <;> simp [initialState, balancesSum, sumKV, supplyVal]

theorem transferCalc_preserves {s s1 : WorldState} {a b : String} {n : Int}
    (hnd : (s.balances.map Prod.fst).Nodup)
    (h : _transferCalc s a b n = .ok s1) :
    (s1.balances.map Prod.fst).Nodup ∧
      sumKV s1.balances = sumKV s.balances ∧
      s1.totalSupply = s.totalSupply := by
  obtain ⟨hab, hn, ba, hba, hle, rfl⟩ := transferCalc_ok_inv h
  refine ⟨nodup_keys_putKV _ _ _ (nodup_keys_putKV _ _ _ hnd), ?_, rfl⟩
  show sumKV (putKV (putKV s.balances a (ba - n)) b ((lookupKV s.balances b).getD 0 + n)) = sumKV s.balances
  have h1 := sumKV_putKV s.balances a (ba - n) hnd
  have hnd1 := nodup_keys_putKV s.balances a (ba - n) hnd
  have h2 := sumKV_putKV (putKV s.balances a (ba - n)) b
    ((lookupKV s.balances b).getD 0 + n) hnd1
  rw [lookupKV_putKV_ne _ _ _ _ (Ne.symm hab)] at h2
  rw [hba] at h1
  simp only [Option.getD_some] at h1
  omega

theorem inv_applyOp {s s' : WorldState} {op : Op}
    (hInv : LedgerInv s) (h : applyOp s op = .ok s') : LedgerInv s' := by
  obtain ⟨hnd, hsum⟩ := hInv
  cases op with
  | mint mspid minter n =>
    obtain ⟨-, hn, hbal, -, hsup, -⟩ := Mint_ok_inv h
    refine ⟨by rw [hbal]; exact nodup_keys_putKV _ _ _ hnd, ?_⟩
    unfold balancesSum supplyVal at hsum ⊢
    rw [hbal, hsup, sumKV_putKV _ _ _ hnd]
    simp only [Option.getD_some]
    omega
  | burn mspid burner n =>
    obtain ⟨-, hn, hbal, -, hsup, -⟩ := Burn_ok_inv h
    refine ⟨by rw [hbal]; exact nodup_keys_putKV _ _ _ hnd, ?_⟩
    unfold balancesSum supplyVal at hsum ⊢
    rw [hbal, hsup, sumKV_putKV _ _ _ hnd]
    simp only [Option.getD_some]
    omega
  | transfer cid r n =>
    obtain ⟨s1, heq, rfl⟩ := Transfer_ok_inv h
    obtain ⟨hnd1, hsum1, hsup1⟩ := transferCalc_preserves hnd heq
    refine ⟨hnd1, ?_⟩
    show sumKV s1.balances = s1.totalSupply.getD 0
    rw [hsum1, hsup1]
    exact hsum
  | transferFrom spender fromAcc receiver n =>
    obtain ⟨hn, hlt, s1, heq, rfl⟩ := TransferFrom_ok_inv h
    obtain ⟨hnd1, hsum1, hsup1⟩ := transferCalc_preserves hnd heq
    refine ⟨hnd1, ?_⟩
    show sumKV s1.balances = s1.totalSupply.getD 0
    rw [hsum1, hsup1]
    exact hsum
  | approve owner spender n =>
    simp only [applyOp, Approve] at h
    cases h
    exact ⟨hnd, hsum⟩

theorem inv_reachable {s : WorldState} (h : Reachable s) : LedgerInv s := by
  induction h with
  | init => exact inv_initialState
  | step _ hstep ih => exact inv_applyOp ih hstep

theorem step_eq_of_ok {s s' : WorldState} {op : Op}
    (h : applyOp s op = .ok s') : step s op = s' := by
  unfold step
  rw [h]

theorem isOk_exists {α : Type} {x : Except String α}
    (h : isOk x = true) : ∃ v, x = .ok v := by
  cases x with
  | error e => simp [isOk] at h
  | ok v => exact ⟨v, rfl⟩

theorem Transfer_balVal {s s' : WorldState} {a b : String} {n : Int}
    (h : Transfer s a b n = .ok s') :
    a ≠ b ∧ 0 ≤ n ∧
    lookupKV s'.balances a = some (balVal s a - n) ∧
    lookupKV s'.balances b = some (balVal s b + n) := by
  obtain ⟨s1, hc, rfl⟩ := Transfer_ok_inv h
  obtain ⟨hab, hn, ba, hba, hle, rfl⟩ := transferCalc_ok_inv hc
  refine ⟨hab, hn, ?_, ?_⟩
  · show lookupKV (putKV (putKV s.balances a (ba - n)) b ((lookupKV s.balances b).getD 0 + n)) a = some (balVal s a - n)
    rw [lookupKV_putKV_ne _ _ _ _ hab, lookupKV_putKV_self]
    unfold balVal
    rw [hba]
    rfl
  · show lookupKV (putKV (putKV s.balances a (ba - n)) b ((lookupKV s.balances b).getD 0 + n)) b = some (balVal s b + n)
    rw [lookupKV_putKV_self]
    rfl

/-! ## The claims -/

/-- C1: starting from the empty world state, after every successful Mint,
Burn, Transfer or TransferFrom invocation (each applied to a state in which
it succeeds), the sum of all stored account balances equals the stored
TotalSupply, with absent records counting as 0. -/
theorem C1_sum_balances_eq_totalSupply {s : WorldState} (h : Reachable s) :
    balancesSum s = supplyVal s :=
  (inv_reachable h).2

theorem C1_witness :
    balancesSum (step initialState (Op.mint "Org1MSP" "alice" 5)) =
      supplyVal (step initialState (Op.mint "Org1MSP" "alice" 5)) :=
  C1_sum_balances_eq_totalSupply (Reachable.step Reachable.init
    (rfl : applyOp initialState (Op.mint "Org1MSP" "alice" 5) =
      .ok (step initialState (Op.mint "Org1MSP" "alice" 5))))

/-- C2 (refuting evidence): the claim that every successful operation keeps
every stored balance non-negative fails on the code. Burn performs no
insufficient-funds check, so an authorized burn of 5 applied to the empty
world state — in which every balance is trivially non-negative — succeeds
and stores the balance -5 for the burner. -/
theorem C2_burn_breaks_nonnegativity :
    isOk (applyOp initialState (Op.burn "Org1MSP" "bob" 5)) = true ∧
    lookupKV (step initialState (Op.burn "Org1MSP" "bob" 5)).balances "bob" = some (-5) :=
  ⟨rfl, rfl⟩

/-- C5 (refuting evidence): Burn has no insufficient-funds guard. An
authorized caller holding 3 tokens burns 5 successfully — where the claim
demands a failure with an insufficient-funds error — and the stored balance
becomes -2. -/
theorem C5_burn_exceeding_balance_succeeds :
    isOk (applyOp (step initialState (Op.mint "Org1MSP" "carol" 3)) (Op.burn "Org1MSP" "carol" 5)) = true ∧
    lookupKV (step (step initialState (Op.mint "Org1MSP" "carol" 3)) (Op.burn "Org1MSP" "carol" 5)).balances "carol" = some (-2) :=
  ⟨rfl, rfl⟩

/-- C6: Mint invoked by a caller whose MSP identifier differs from Org1MSP
fails with the authorization error and commits nothing: the stepped state is
the pre-state, so TotalSupply and every account balance are unchanged. -/
theorem C6_mint_unauthorized (s : WorldState) (mspid minter : String)
    (amount : Int) (h : mspid ≠ "Org1MSP") :
    applyOp s (Op.mint mspid minter amount) =
      .error ("client " ++ mspid ++ " is not authorized to create new tokens") ∧
    step s (Op.mint mspid minter amount) = s ∧
    supplyVal (step s (Op.mint mspid minter amount)) = supplyVal s ∧
    ∀ a, balVal (step s (Op.mint mspid minter amount)) a = balVal s a := by
  have h1 : applyOp s (Op.mint mspid minter amount) =
      .error ("client " ++ mspid ++ " is not authorized to create new tokens") := by
    simp only [applyOp, Mint, if_pos h]
  have h2 : step s (Op.mint mspid minter amount) = s := by
    unfold step
    rw [h1]
  exact ⟨h1, h2, by rw [h2], fun a => by rw [h2]⟩

theorem C6_witness :
    applyOp initialState (Op.mint "Org2MSP" "mallory" 7) =
      .error ("client " ++ "Org2MSP" ++ " is not authorized to create new tokens") ∧
    step initialState (Op.mint "Org2MSP" "mallory" 7) = initialState :=
  ⟨(C6_mint_unauthorized initialState "Org2MSP" "mallory" 7 (by decide)).1,
   (C6_mint_unauthorized initialState "Org2MSP" "mallory" 7 (by decide)).2.1⟩

/-- C7: Approve followed by Allowance for the same (owner, spender) pair,
with no intervening operation, returns exactly the approved amount, for
every prior state and every integer amount. -/
theorem C7_approve_then_allowance (s : WorldState) (owner spender : String)
    (n : Int) :
    Allowance (step s (Op.approve owner spender n)) owner spender = n := by
  show Allowance (setEvent { s with allowances := putKV s.allowances (owner, spender) n } "Approval" ⟨owner, spender, n⟩) owner spender = n
  show (lookupKV (putKV s.allowances (owner, spender) n) (owner, spender)).getD 0 = n
  rw [lookupKV_putKV_self]
  rfl

/-- C9: a successful Burn publishes a Transfer event whose From field is the
null-account sentinel 0x0 and whose To field is the burner — exactly the
field orientation a successful Mint uses — so the two notifications carry
the same record shape. -/
theorem C9_burn_event_oriented_like_mint (s s' : WorldState)
    (mspid who : String) (n : Int) :
    (applyOp s (Op.burn mspid who n) = .ok s' →
      s'.events = ("Transfer", ⟨"0x0", who, n⟩) :: s.events) ∧
    (applyOp s (Op.mint mspid who n) = .ok s' →
      s'.events = ("Transfer", ⟨"0x0", who, n⟩) :: s.events) := by
  constructor
  · intro h
    exact (Burn_ok_inv h).2.2.2.2.2
  · intro h
    exact (Mint_ok_inv h).2.2.2.2.2

theorem C9_witness :
    (step initialState (Op.burn "Org1MSP" "debbie" 2)).events =
      ("Transfer", ⟨"0x0", "debbie", 2⟩) :: initialState.events :=
  (C9_burn_event_oriented_like_mint initialState
    (step initialState (Op.burn "Org1MSP" "debbie" 2)) "Org1MSP" "debbie" 2).1 rfl

/-- C3: for every positive amount, TransferFrom fails with the
insufficient-allowance error whenever the stored allowance for
(owner, spender) is not strictly greater than the amount — so an
exact-amount delegated transfer is rejected — and when the allowance is
strictly greater and the call succeeds, the stored allowance becomes
allowance - amount. -/
theorem C3_transferFrom_allowance_boundary (s : WorldState)
    (spender fromAcc receiver : String) (amount : Int) (hpos : 0 < amount) :
    (Allowance s fromAcc spender ≤ amount →
      TransferFrom s spender fromAcc receiver amount =
        .error "spender does not have enough allowance to transfer") ∧
    (amount < Allowance s fromAcc spender →
      ∀ s', TransferFrom s spender fromAcc receiver amount = .ok s' →
        Allowance s' fromAcc spender = Allowance s fromAcc spender - amount) := by
  constructor
  · intro hle
    have hle' : (lookupKV s.allowances (fromAcc, spender)).getD 0 ≤ amount := hle
    simp only [TransferFrom, if_neg (not_le.mpr hpos), if_pos hle']
  · intro hgt s' h
    obtain ⟨hn, hlt, s1, heq, rfl⟩ := TransferFrom_ok_inv h
    show (lookupKV (putKV s1.allowances (fromAcc, spender) ((lookupKV s.allowances (fromAcc, spender)).getD 0 - amount)) (fromAcc, spender)).getD 0 = Allowance s fromAcc spender - amount
    rw [lookupKV_putKV_self]
    rfl

theorem C3_witness :
    TransferFrom (step (step initialState (Op.mint "Org1MSP" "A" 100)) (Op.approve "A" "B" 50)) "B" "A" "C" 50 =
      .error "spender does not have enough allowance to transfer" ∧
    Allowance (step (step (step initialState (Op.mint "Org1MSP" "A" 100)) (Op.approve "A" "B" 50)) (Op.transferFrom "B" "A" "C" 49)) "A" "B" =
      Allowance (step (step initialState (Op.mint "Org1MSP" "A" 100)) (Op.approve "A" "B" 50)) "A" "B" - 49 :=
  ⟨(C3_transferFrom_allowance_boundary
      (step (step initialState (Op.mint "Org1MSP" "A" 100)) (Op.approve "A" "B" 50))
      "B" "A" "C" 50 (by decide)).1 (by decide),
   (C3_transferFrom_allowance_boundary
      (step (step initialState (Op.mint "Org1MSP" "A" 100)) (Op.approve "A" "B" 50))
      "B" "A" "C" 49 (by decide)).2 (by decide)
      (step (step (step initialState (Op.mint "Org1MSP" "A" 100)) (Op.approve "A" "B" 50)) (Op.transferFrom "B" "A" "C" 49)) rfl⟩

/-- C4: the shared transfer routine fails when the two addresses coincide,
when the amount is negative, when the sender has no balance record, and
when the sender's stored balance is below the amount; otherwise it succeeds,
debits the sender by the amount and credits the receiver by the amount, an
absent receiver record being credited as if its balance were 0. -/
theorem C4_transferCalc_cases (s : WorldState) (fromAcc receiver : String)
    (amount : Int) :
    (fromAcc = receiver → isOk (_transferCalc s fromAcc receiver amount) = false) ∧
    (amount < 0 → isOk (_transferCalc s fromAcc receiver amount) = false) ∧
    (lookupKV s.balances fromAcc = none →
      isOk (_transferCalc s fromAcc receiver amount) = false) ∧
    (∀ b, lookupKV s.balances fromAcc = some b → b < amount →
      isOk (_transferCalc s fromAcc receiver amount) = false) ∧
    (∀ b, fromAcc ≠ receiver → 0 ≤ amount →
      lookupKV s.balances fromAcc = some b → amount ≤ b →
      isOk (_transferCalc s fromAcc receiver amount) = true ∧
      ∀ s', _transferCalc s fromAcc receiver amount = .ok s' →
        balVal s' fromAcc = b - amount ∧
        balVal s' receiver = balVal s receiver + amount) := by
  refine ⟨?_, ?_, ?_, ?_, ?_⟩
  · intro hab
    cases h : _transferCalc s fromAcc receiver amount with
    | error e => rfl
    | ok s' =>
      obtain ⟨hne, -⟩ := transferCalc_ok_inv h
      exact absurd hab hne
  · intro hneg
    cases h : _transferCalc s fromAcc receiver amount with
    | error e => rfl
    | ok s' =>
      obtain ⟨-, h0, -⟩ := transferCalc_ok_inv h
      omega
  · intro hnone
    cases h : _transferCalc s fromAcc receiver amount with
    | error e => rfl
    | ok s' =>
      obtain ⟨-, -, ba, hba, -⟩ := transferCalc_ok_inv h
      rw [hnone] at hba
      exact Option.noConfusion hba
  · intro b hb hlt
    cases h : _transferCalc s fromAcc receiver amount with
    | error e => rfl
    | ok s' =>
      obtain ⟨-, -, ba, hba, hle, -⟩ := transferCalc_ok_inv h
      rw [hb] at hba
      have : b = ba := by injection hba
      omega
  · intro b hab h0 hb hle
    have hok := transferCalc_ok s fromAcc receiver amount hab h0 b hb hle
    refine ⟨by rw [hok]; rfl, ?_⟩
    intro s' h
    rw [hok] at h
    injection h with h2
    subst h2
    constructor
    · show (lookupKV (putKV (putKV s.balances fromAcc (b - amount)) receiver ((lookupKV s.balances receiver).getD 0 + amount)) fromAcc).getD 0 = b - amount
      rw [lookupKV_putKV_ne _ _ _ _ hab, lookupKV_putKV_self]
      rfl
    · show (lookupKV (putKV (putKV s.balances fromAcc (b - amount)) receiver ((lookupKV s.balances receiver).getD 0 + amount)) receiver).getD 0 = balVal s receiver + amount
      rw [lookupKV_putKV_self]
      rfl

theorem C4_witness :
    isOk (_transferCalc (step initialState (Op.mint "Org1MSP" "a" 10)) "a" "b" 3) = true ∧
    balVal { balances := [("a", 7), ("b", 3)], allowances := [], totalSupply := some 10, events := [("Transfer", ⟨"0x0", "a", 10⟩)] } "a" = 10 - 3 := by
  have h := C4_transferCalc_cases (step initialState (Op.mint "Org1MSP" "a" 10)) "a" "b" 3
  have h5 := h.2.2.2.2 10 (by decide) (by decide) rfl (by decide)
  exact ⟨h5.1, (h5.2 _ rfl).1⟩

/-- C8 (counterexample): the claim fails on a state reachable from the empty
world state. The unguarded Burn leaves account b with stored balance -5;
after minting 10 to account a, transfer(a, b, 3) succeeds, but the return
transfer(b, a, 3) fails its funds check (b holds -2 < 3), so the round trip
leaves a at 7 instead of restoring 10. -/
theorem C8_counterexample :
    isOk (applyOp (step (step initialState (Op.burn "Org1MSP" "b" 5)) (Op.mint "Org1MSP" "a" 10)) (Op.transfer "a" "b" 3)) = true ∧
    isOk (applyOp (step (step (step initialState (Op.burn "Org1MSP" "b" 5)) (Op.mint "Org1MSP" "a" 10)) (Op.transfer "a" "b" 3)) (Op.transfer "b" "a" 3)) = false ∧
    balVal (step (step (step (step initialState (Op.burn "Org1MSP" "b" 5)) (Op.mint "Org1MSP" "a" 10)) (Op.transfer "a" "b" 3)) (Op.transfer "b" "a" 3)) "a" = 7 ∧
    balVal (step (step initialState (Op.burn "Org1MSP" "b" 5)) (Op.mint "Org1MSP" "a" 10)) "a" = 10 :=
  ⟨rfl, rfl, rfl, rfl⟩

/-- C8 (amended): whenever the recipient b's stored balance is non-negative
(absence counting as 0) and transfer(a, b, n) succeeds, the immediate return
transfer(b, a, n) also succeeds and both accounts' balance values are
restored to their values before the first transfer. -/
theorem C8_transfer_round_trip (s : WorldState) (a b : String) (n : Int)
    (hb : 0 ≤ balVal s b)
    (h1 : isOk (Transfer s a b n) = true) :
    isOk (Transfer (step s (Op.transfer a b n)) b a n) = true ∧
    balVal (step (step s (Op.transfer a b n)) (Op.transfer b a n)) a = balVal s a ∧
    balVal (step (step s (Op.transfer a b n)) (Op.transfer b a n)) b = balVal s b := by
  obtain ⟨s1', hT1⟩ := isOk_exists h1
  have hstep1 : step s (Op.transfer a b n) = s1' := step_eq_of_ok hT1
  obtain ⟨hab, hn, hA1, hB1⟩ := Transfer_balVal hT1
  have hok2 := transferCalc_ok s1' b a n (Ne.symm hab) hn (balVal s b + n) hB1 (by omega)
  have hok2T : isOk (Transfer s1' b a n) = true := by
    unfold Transfer
    rw [hok2]
    rfl
  obtain ⟨s2', hT2⟩ := isOk_exists hok2T
  have hstep2 : step s1' (Op.transfer b a n) = s2' := step_eq_of_ok hT2
  obtain ⟨-, -, hB2, hA2⟩ := Transfer_balVal hT2
  have e1 : balVal s1' a = balVal s a - n := by
    unfold balVal
    rw [hA1]
    rfl
  have e2 : balVal s1' b = balVal s b + n := by
    unfold balVal
    rw [hB1]
    rfl
  have f1 : balVal s2' a = balVal s1' a + n := by
    unfold balVal
    rw [hA2]
    rfl
  have f2 : balVal s2' b = balVal s1' b - n := by
    unfold balVal
    rw [hB2]
    rfl
  rw [hstep1, hstep2]
  exact ⟨hok2T, by omega, by omega⟩

theorem C8_witness :
    isOk (Transfer (step (step initialState (Op.mint "Org1MSP" "a" 10)) (Op.transfer "a" "b" 3)) "b" "a" 3) = true ∧
    balVal (step (step (step initialState (Op.mint "Org1MSP" "a" 10)) (Op.transfer "a" "b" 3)) (Op.transfer "b" "a" 3)) "a" = balVal (step initialState (Op.mint "Org1MSP" "a" 10)) "a" ∧
    balVal (step (step (step initialState (Op.mint "Org1MSP" "a" 10)) (Op.transfer "a" "b" 3)) (Op.transfer "b" "a" 3)) "b" = balVal (step initialState (Op.mint "Org1MSP" "a" 10)) "b" :=
  C8_transfer_round_trip (step initialState (Op.mint "Org1MSP" "a" 10)) "a" "b" 3
    (by decide) rfl

/-- C10 (counterexample): the claim fails for callers whose existing balance
record is negative, which the unguarded Burn makes reachable: account b holds
-5, its record exists, yet Transfer of amount 0 to a different account is
rejected by the funds check (-5 < 0). -/
theorem C10_counterexample :
    (lookupKV (step initialState (Op.burn "Org1MSP" "b" 5)).balances "b").isSome = true ∧
    isOk (Transfer (step initialState (Op.burn "Org1MSP" "b" 5)) "b" "c" 0) = false :=
  ⟨rfl, rfl⟩

/-- C10 (amended): Transfer accepts amount 0 for every caller holding an
existing balance record with a non-negative balance and every distinct
recipient — it succeeds, leaves both balance values unchanged, and emits a
Transfer event with value 0; the amount validation of the shared routine
rejects exactly the negative amounts — whereas TransferFrom rejects every
amount ≤ 0 outright. -/
theorem C10_zero_transfer (s : WorldState) (caller receiver : String)
    (b : Int) (hrec : lookupKV s.balances caller = some b) (hb : 0 ≤ b)
    (hne : caller ≠ receiver) :
    isOk (Transfer s caller receiver 0) = true ∧
    balVal (step s (Op.transfer caller receiver 0)) caller = balVal s caller ∧
    balVal (step s (Op.transfer caller receiver 0)) receiver = balVal s receiver ∧
    (step s (Op.transfer caller receiver 0)).events =
      ("Transfer", ⟨caller, receiver, 0⟩) :: s.events ∧
    (∀ n : Int, n < 0 → isOk (Transfer s caller receiver n) = false) ∧
    (∀ (sp fr rc : String) (n : Int), n ≤ 0 →
      TransferFrom s sp fr rc n = .error "failed amount must be positive integer") := by
  have hok := transferCalc_ok s caller receiver 0 hne le_rfl b hrec hb
  have hT : Transfer s caller receiver 0 = .ok (setEvent { s with balances := putKV (putKV s.balances caller (b - 0)) receiver ((lookupKV s.balances receiver).getD 0 + 0) } "Transfer" ⟨caller, receiver, 0⟩) := by
    unfold Transfer
    rw [hok]
  have hstep : step s (Op.transfer caller receiver 0) = setEvent { s with balances := putKV (putKV s.balances caller (b - 0)) receiver ((lookupKV s.balances receiver).getD 0 + 0) } "Transfer" ⟨caller, receiver, 0⟩ :=
    step_eq_of_ok hT
  obtain ⟨-, -, hA, hB⟩ := Transfer_balVal hT
  refine ⟨by rw [hT]; rfl, ?_, ?_, ?_, ?_, ?_⟩
  · have e : balVal (step s (Op.transfer caller receiver 0)) caller = balVal s caller - 0 := by
      unfold balVal
      rw [hstep, hA]
      rfl
    omega
  · have e : balVal (step s (Op.transfer caller receiver 0)) receiver = balVal s receiver + 0 := by
      unfold balVal
      rw [hstep, hB]
      rfl
    omega
  · rw [hstep]
    rfl
  · intro n hn
    unfold Transfer
    cases h : _transferCalc s caller receiver n with
    | error e => rfl
    | ok s' =>
      obtain ⟨-, h0, -⟩ := transferCalc_ok_inv h
      omega
  · intro sp fr rc n hn
    have hn' : n ≤ 0 := hn
    simp only [TransferFrom, if_pos hn']

theorem C10_witness :
    isOk (Transfer (step initialState (Op.mint "Org1MSP" "a" 10)) "a" "c" 0) = true ∧
    balVal (step (step initialState (Op.mint "Org1MSP" "a" 10)) (Op.transfer "a" "c" 0)) "a" = balVal (step initialState (Op.mint "Org1MSP" "a" 10)) "a" ∧
    TransferFrom (step initialState (Op.mint "Org1MSP" "a" 10)) "B" "a" "c" 0 = .error "failed amount must be positive integer" := by
  have h := C10_zero_transfer (step initialState (Op.mint "Org1MSP" "a" 10)) "a" "c" 10 rfl (by decide) (by decide)
  exact ⟨h.1, h.2.1, h.2.2.2.2.2 "B" "a" "c" 0 (by decide)⟩
